import Mathlib

/-!
Verification of the strategy-decision-and-portfolio-valuation engine of the
Multi-Strategy-Trading repository. The Python source (strategies.py,
performances.py) is shallowly embedded: SQL aggregate queries become folds
over an explicit list of ledger rows, pandas per-ticker feature columns
become a record of rational feature values, and Python runtime failures
(OverflowError on `int(inf)` after a float division by zero) become
`Except.error`. Dates are modelled as naturals (the SQL queries only compare
dates, never compute with them), quantities as integers, and float
arithmetic as exact rational arithmetic.
-/

/-- Operation type of a deal row: the `type_operation` column of the Deals
table, constrained by the schema to 'achat' (buy) or 'vente' (sell). -/
inductive Op where
  | achat : Op
  | vente : Op
deriving DecidableEq

/-- Product class: the `type` column of the Products table, constrained by
the schema to 'Stock', 'Bond' or 'ETF'. -/
inductive ProductType where
  | Stock : ProductType
  | Bond : ProductType
  | ETF : ProductType
deriving DecidableEq

/-- Tickers are plain strings, as in the Products table. -/
abbrev Ticker := String

/-- A row of the Deals table (the trade-event ledger):
portefeuille_id, produit_id, type_operation, quantite, date,
volatilite_periode, rendement_periode. The two trailing annotation columns
are nullable REALs, modelled as optional rationals. -/
structure Deal where
  portefeuille_id : Nat
  produit_id : Nat
  type_operation : Op
  quantite : Int
  date : Nat
  volatilite_periode : Option ℚ
  rendement_periode : Option ℚ
deriving DecidableEq

/-- Signed quantity of a deal: +quantite for 'achat', -quantite for 'vente'.
This is the CASE expression shared by the position queries in
strategies.get_current_position and performances.get_portfolio_positions. -/
def signedQty (d : Deal) : Int :=
  match d.type_operation with
  | Op.achat => d.quantite
  | Op.vente => -d.quantite

/-- Rows of the ledger selected by both position queries: the WHERE clause
`portefeuille_id = ? AND (ticker joins to produit_id =) ? AND date <= ?`. -/
def dealGroup (deals : List Deal) (pid prod asOf : Nat) : List Deal :=
  deals.filter (fun d =>
    decide (d.portefeuille_id = pid ∧ d.produit_id = prod ∧ d.date ≤ asOf))

/-- Embeds strategies.InvestmentStrategies.get_current_position: the SQL
`SUM(CASE WHEN type_operation = 'achat' THEN quantite WHEN 'vente' THEN
-quantite END)` over the deals of the portfolio/product with date ≤ asOf,
COALESCEd to 0 when there is no row. -/
def get_current_position (deals : List Deal) (pid prod asOf : Nat) : Int :=
  ((dealGroup deals pid prod asOf).map signedQty).sum

/-- Sum of quantities over buy rows of the group (date ≤ asOf). -/
def buys_sum (deals : List Deal) (pid prod asOf : Nat) : Int :=
  (((dealGroup deals pid prod asOf).filter
      (fun d => decide (d.type_operation = Op.achat))).map Deal.quantite).sum

/-- Sum of quantities over sell rows of the group (date ≤ asOf). -/
def sells_sum (deals : List Deal) (pid prod asOf : Nat) : Int :=
  (((dealGroup deals pid prod asOf).filter
      (fun d => decide (d.type_operation = Op.vente))).map Deal.quantite).sum

/-- Window function of performances.get_portfolio_positions: the running
signed sum `SUM(...) OVER (PARTITION BY produit_id ORDER BY date)` with the
default RANGE frame, evaluated at a row of date `rowDate`: all peers with
date ≤ rowDate are included. -/
def running_position (deals : List Deal) (pid prod asOf rowDate : Nat) : Int :=
  (((dealGroup deals pid prod asOf).filter
      (fun d => decide (d.date ≤ rowDate))).map signedQty).sum

/-- Largest date among a list of deal rows (0 for the empty list). -/
def maxDateOf (l : List Deal) : Nat :=
  (l.map Deal.date).foldr max 0

/-- Position value reported by performances.get_portfolio_positions for one
product: the bare `running_position` column of the `GROUP BY ticker` is
resolved at the last row of the window order, i.e. at the maximal date of
the group (with the RANGE frame every maximal-date row carries the same
running sum, so the choice among date-ties does not matter). -/
def emitted_position (deals : List Deal) (pid prod asOf : Nat) : Int :=
  running_position deals pid prod asOf (maxDateOf (dealGroup deals pid prod asOf))

/-- Embeds performances.PortfolioAnalyzer.get_portfolio_positions over a
catalog `prods` of product ids: one output row (produit_id, position) per
product whose group is nonempty (GROUP BY only forms existing groups) and
whose emitted running position is strictly positive (HAVING
running_position > 0). -/
def get_portfolio_positions (deals : List Deal) (pid asOf : Nat)
    (prods : List Nat) : List (Nat × Int) :=
  prods.filterMap (fun p =>
    if (dealGroup deals pid p asOf).isEmpty = false ∧
        0 < emitted_position deals pid p asOf
    then some (p, emitted_position deals pid p asOf)
    else none)

/-- Truncation of Python `int()` applied to a float: rounds toward zero. -/
def pyInt (x : ℚ) : Int :=
  if x < 0 then -⌊-x⌋ else ⌊x⌋

/-- The `self.target_volatility = 0.10` parameter set in
InvestmentStrategies.__init__. -/
def target_volatility : ℚ := 1/10

/-- Per-ticker feature values computed by the policies from the market-data
frame: trailing 5/10/20/30-day mean returns and the 30-day annualized
volatility `df.Returns.head(30).std() * sqrt(252)`. A `none` volatility
models the float NaN produced by `std()` on a window with fewer than two
observations; every float comparison with NaN is false, which `oLt`/`oGt`
reproduce. The mean fields model windows where `mean()` (which skips NaN)
yields a number; tickers whose frame is empty or lacks a Returns column are
skipped by the policies' guard and so never appear in the data list. -/
structure Features where
  r5 : ℚ
  r10 : ℚ
  r20 : ℚ
  r30 : ℚ
  vol : Option ℚ
deriving DecidableEq

/-- Float comparison `v < c` where `v` may be NaN (`none`): NaN compares
false. -/
def oLt (v : Option ℚ) (c : ℚ) : Bool :=
  match v with
  | some q => decide (q < c)
  | none => false

/-- Float comparison `v > c` where `v` may be NaN (`none`): NaN compares
false. -/
def oGt (v : Option ℚ) (c : ℚ) : Bool :=
  match v with
  | some q => decide (c < q)
  | none => false

/-- A decision tuple `(portfolio_id, ticker, type_operation, quantity)` as
appended to the `decisions` list by the three policies. -/
structure Decision where
  pid : Nat
  ticker : Ticker
  op : Op
  qty : Int
deriving DecidableEq

/-- Decision of apply_low_risk_strategy for a single ticker, given its
features, its Products.type, and its current position. `Except.error`
models the Python OverflowError raised by `int(10000 / (volatility * 100))`
when the volatility is exactly zero (the float division yields inf).
The portfolio-level volatility computed at the top of the Python function
is never read by any branch and is omitted. -/
def lowRiskTickerDecision (pid : Nat) (t : Ticker) (f : Features)
    (ty : ProductType) (posn : Int) : Except Unit (Option Decision) :=
  if 0 < posn then
    if (f.r30 < -(2/100) ∧ ty = ProductType.Stock) ∨
        (f.r30 < -(1/100) ∧ ty = ProductType.Bond) ∨
        oGt f.vol (target_volatility * (3/2)) then
      Except.ok (some ⟨pid, t, Op.vente, min posn (max 5 (pyInt (posn * (25/100))))⟩)
    else
      Except.ok none
  else
    match f.vol with
    | none => Except.ok none
    | some v =>
      if 0 < f.r10 ∧ 0 < f.r30 ∧ v < target_volatility * (12/10) then
        if v * 100 = 0 then
          Except.error ()
        else
          Except.ok (some ⟨pid, t, Op.achat, max 5 (min 20 (pyInt (10000 / (v * 100))))⟩)
      else
        Except.ok none

/-- Embeds InvestmentStrategies.apply_low_risk_strategy: iterate the market
data in order, appending the per-ticker decision; a division failure aborts
the whole call, as the uncaught Python exception would. -/
def apply_low_risk_strategy (pid : Nat) (ty : Ticker → ProductType)
    (posn : Ticker → Int) : List (Ticker × Features) → Except Unit (List Decision)
  | [] => Except.ok []
  | (t, f) :: rest =>
    match lowRiskTickerDecision pid t f (ty t) (posn t) with
    | Except.error e => Except.error e
    | Except.ok none => apply_low_risk_strategy pid ty posn rest
    | Except.ok (some d) =>
      match apply_low_risk_strategy pid ty posn rest with
      | Except.error e => Except.error e
      | Except.ok ds => Except.ok (d :: ds)

/-- Week-of-month computed by apply_low_turnover_strategy:
`(current_date.day - 1) // 7 + 1`. -/
def week_number (day : Nat) : Nat :=
  (day - 1) / 7 + 1

/-- The scan loop of apply_low_turnover_strategy: the first held ticker
whose 5-day mean return falls below 90% of its 20-day mean return yields a
sell of `min(position, randint(15, 25))` and stops the loop; otherwise the
first zero-position ticker whose 5-day mean exceeds 110% of its 20-day mean
yields a buy of `randint(15, 25)` and stops. `rnd` is the oracle for the
`random.randint(15, 25)` draw of each ticker. -/
def lowTurnoverScan (pid : Nat) (posn : Ticker → Int) (rnd : Ticker → Int) :
    List (Ticker × Features) → List Decision
  | [] => []
  | (t, f) :: rest =>
    if 0 < posn t then
      if f.r5 < f.r20 * (90/100) then
        [⟨pid, t, Op.vente, min (posn t) (rnd t)⟩]
      else
        lowTurnoverScan pid posn rnd rest
    else
      if f.r20 * (110/100) < f.r5 then
        [⟨pid, t, Op.achat, rnd t⟩]
      else
        lowTurnoverScan pid posn rnd rest

/-- Embeds InvestmentStrategies.apply_low_turnover_strategy: empty unless
the week-of-month is 1 or 3; empty when a Deals row for the portfolio
already exists at this exact date (`tradesOnDate` is that COUNT); otherwise
the single-decision scan. -/
def apply_low_turnover_strategy (pid : Nat) (posn : Ticker → Int)
    (rnd : Ticker → Int) (day tradesOnDate : Nat)
    (data : List (Ticker × Features)) : List Decision :=
  if week_number day = 1 ∨ week_number day = 3 then
    if 0 < tradesOnDate then []
    else lowTurnoverScan pid posn rnd data
  else []

/-- Decision of apply_high_yield_strategy for a single ticker. The sell
(stop-loss) branch fires on a -7% 30-day return or a confirmed downtrend;
the buy branch on an all-positive momentum with volatility below 40%.
`Except.error` models the OverflowError of `int(15000 / (volatility * 100))`
at volatility zero, as in the low-risk policy. -/
def highYieldTickerDecision (pid : Nat) (t : Ticker) (f : Features)
    (posn : Int) : Except Unit (Option Decision) :=
  if 0 < posn then
    if f.r30 < -(7/100) ∨ (f.r5 < 0 ∧ f.r10 < 0 ∧ f.r30 < 0) then
      Except.ok (some ⟨pid, t, Op.vente, min posn (max 5 (pyInt (posn * (75/100))))⟩)
    else
      Except.ok none
  else
    match f.vol with
    | none => Except.ok none
    | some v =>
      if 0 < f.r5 ∧ 0 < f.r10 ∧ 0 < f.r30 ∧ v < 40/100 then
        if v * 100 = 0 then
          Except.error ()
        else
          Except.ok (some ⟨pid, t, Op.achat, max 5 (min 25 (pyInt (15000 / (v * 100))))⟩)
      else
        Except.ok none

/-- Embeds InvestmentStrategies.apply_high_yield_strategy: iterate the
market data in order, appending the per-ticker decision; a division failure
aborts the whole call. The `max_position_size = 25` local is inlined. -/
def apply_high_yield_strategy (pid : Nat) (posn : Ticker → Int) :
    List (Ticker × Features) → Except Unit (List Decision)
  | [] => Except.ok []
  | (t, f) :: rest =>
    match highYieldTickerDecision pid t f (posn t) with
    | Except.error e => Except.error e
    | Except.ok none => apply_high_yield_strategy pid posn rest
    | Except.ok (some d) =>
      match apply_high_yield_strategy pid posn rest with
      | Except.error e => Except.error e
      | Except.ok ds => Except.ok (d :: ds)

/-- Dedup predicate of store_deals: does a ledger row match the
`(portefeuille_id, produit_id, date, type_operation)` key of the candidate
insertion. -/
def dealKeyEq (r : Deal) (pid prod dt : Nat) (op : Op) : Bool :=
  decide (r.portefeuille_id = pid ∧ r.produit_id = prod ∧ r.date = dt ∧
    r.type_operation = op)

/-- One iteration of the store_deals loop: resolve the ticker through the
Products catalog (a missing product is skipped), skip when a row with the
same (portfolio, product, date, operation) key already exists, otherwise
insert the row annotated with the trailing mean volatility and return
supplied by the Returns-table oracle `ann`. -/
def insertDeal (catalog : Ticker → Option Nat) (ann : Nat → Nat → Option ℚ × Option ℚ)
    (dt : Nat) (led : List Deal) (d : Decision) : List Deal :=
  match catalog d.ticker with
  | none => led
  | some prod =>
    if led.any (fun r => dealKeyEq r d.pid prod dt d.op) then led
    else led ++ [⟨d.pid, prod, d.op, d.qty, dt, (ann prod dt).1, (ann prod dt).2⟩]

/-- Embeds InvestmentStrategies.store_deals: left fold of the idempotent
insert over the decision list. -/
def store_deals (catalog : Ticker → Option Nat)
    (ann : Nat → Nat → Option ℚ × Option ℚ) (dt : Nat) (led : List Deal)
    (deals : List Decision) : List Deal :=
  deals.foldl (insertDeal catalog ann dt) led

/-- Two ledger rows share the store_deals dedup key. -/
def sameKey (a b : Deal) : Prop :=
  a.portefeuille_id = b.portefeuille_id ∧ a.produit_id = b.produit_id ∧
    a.date = b.date ∧ a.type_operation = b.type_operation

instance : DecidablePred fun p : Deal × Deal => sameKey p.1 p.2 :=
  fun _ => by unfold sameKey; infer_instance

/-- The ledger uniqueness invariant: no two rows share the
(portfolio, product, date, operation) key. -/
def NoDupKeys (l : List Deal) : Prop :=
  l.Pairwise (fun a b => ¬ sameKey a b)

/-- A weekly sample appended by performances.get_weekly_returns:
{'date': monday, 'return': weekly_return, 'value': value}. -/
structure Sample where
  date : Nat
  ret : ℚ
  value : ℚ
deriving DecidableEq

/-- Float np.clip(x, lo, hi). -/
def clip (x lo hi : ℚ) : ℚ :=
  min hi (max lo x)

/-- Loop of performances.get_weekly_returns: walk the Mondays, holding the
last strictly positive portfolio value in `prev`; once a positive previous
value exists, append the consecutive ratio minus one, clipped to ±10%. The
`value` oracle is get_portfolio_value_and_return restricted to its first
component, the only one this loop reads. -/
def weeklyGo (value : Nat → ℚ) : Option ℚ → List Nat → List Sample
  | _, [] => []
  | none, m :: rest =>
    weeklyGo value (if 0 < value m then some (value m) else none) rest
  | some pv, m :: rest =>
    if 0 < pv then
      ⟨m, clip (value m / pv - 1) (-(10/100)) (10/100), value m⟩ ::
        weeklyGo value (if 0 < value m then some (value m) else some pv) rest
    else
      weeklyGo value (if 0 < value m then some (value m) else some pv) rest

/-- Embeds performances.PortfolioAnalyzer.get_weekly_returns over the list
of Mondays in the range. -/
def get_weekly_returns (value : Nat → ℚ) (mondays : List Nat) : List Sample :=
  weeklyGo value none mondays

/-- Total return `(1 + returns).prod() - 1` (geometric). -/
def totalReturn (rs : List ℚ) : ℚ :=
  (rs.map (fun r => 1 + r)).prod - 1

/-- Mean of a list of rationals (0 for the empty list, denominator cast). -/
def listMean (rs : List ℚ) : ℚ :=
  rs.sum / (rs.length : ℚ)

/-- Sample variance with ddof = 1, the square of the pandas `std()` used on
the weekly returns. -/
def sampleVar (rs : List ℚ) : ℚ :=
  ((rs.map (fun r => (r - listMean rs) ^ 2)).sum) / ((rs.length : ℚ) - 1)

/-- Minimum of a list (0 for the empty list). -/
def listMin : List ℚ → ℚ
  | [] => 0
  | x :: xs => xs.foldl min x

/-- Cumulative products `(1 + returns).cumprod()`. -/
def cumulative_returns (rs : List ℚ) : List ℚ :=
  ((rs.map (fun r => 1 + r)).scanl (fun a b => a * b) 1).tail

/-- Expanding maximum with initial accumulator, one output per input. -/
def runningMaxAux (acc : ℚ) : List ℚ → List ℚ
  | [] => []
  | x :: xs => max acc x :: runningMaxAux (max acc x) xs

/-- Maximum drawdown: minimum of cumulative/rolling-peak - 1. -/
def drawdown_max (rs : List ℚ) : ℚ :=
  match cumulative_returns rs with
  | [] => 0
  | c :: cs =>
    listMin (List.zipWith (fun a m => a / m - 1) (c :: cs) (runningMaxAux c (c :: cs)))

/-- The fixed `self.risk_free_rate = 0.02` of PortfolioAnalyzer. -/
noncomputable def risk_free_rate : ℝ := 2/100

/-- The metrics dictionary returned by calculate_performance_metrics (the
trailing raw weekly_returns frame is not part of the numeric result and is
omitted). Annualization uses a real exponent and a square root, so the two
annualized fields and the Sharpe ratio live in ℝ. -/
structure Metrics where
  rendement_total : ℚ
  rendement_annualise : ℝ
  volatilite_annualisee : ℝ
  ratio_sharpe : ℝ
  drawdown_max : ℚ
  valeur_finale : ℚ
  nb_semaines_positives : Nat

/-- The canonical all-zero metrics returned on fewer than two samples. -/
def zeroMetrics : Metrics :=
  ⟨0, 0, 0, 0, 0, 0, 0⟩

/-- Annualized return `(1 + total) ** (52 / nb_weeks) - 1`. -/
noncomputable def annualizedReturn (rs : List ℚ) : ℝ :=
  (1 + (totalReturn rs : ℝ)) ^ ((52 : ℝ) / (rs.length : ℝ)) - 1

/-- Annualized volatility `std * sqrt(52)` where std is the ddof-1 weekly
standard deviation. -/
noncomputable def annualizedVolatility (rs : List ℚ) : ℝ :=
  Real.sqrt ((sampleVar rs : ℝ)) * Real.sqrt 52

/-- Embeds performances.PortfolioAnalyzer.calculate_performance_metrics on
the weekly samples: all-zero result below two samples, otherwise the
geometric total return, annualized return and volatility, the guarded
Sharpe ratio, the maximum drawdown, the last sampled value and the count of
positive weeks. -/
noncomputable def calculate_performance_metrics (samples : List Sample) : Metrics :=
  if samples.length < 2 then zeroMetrics
  else
    let rs := samples.map Sample.ret
    ⟨totalReturn rs,
      annualizedReturn rs,
      annualizedVolatility rs,
      if annualizedVolatility rs ≠ 0 then
        (annualizedReturn rs - risk_free_rate) / annualizedVolatility rs
      else 0,
      drawdown_max rs,
      ((samples.map Sample.value).getLast?).getD 0,
      (rs.filter (fun r => decide (0 < r))).length⟩

/-- Ticker used by the concrete witness instances. -/
def tkA : Ticker := "AAA"

/-- Features with mildly positive trailing returns and 10% volatility. -/
def fPos : Features :=
  ⟨1/100, 1/100, 1/100, 1/100, some (1/10)⟩

/-- Features with positive trailing returns and exactly zero volatility
(thirty identical strictly positive daily log-returns). -/
def fZeroVol : Features :=
  ⟨1/100, 1/100, 1/100, 1/100, some 0⟩

/-- Features with positive trailing returns and NaN volatility (a window
with fewer than two observations). -/
def fNaN : Features :=
  ⟨1/100, 1/100, 1/100, 1/100, none⟩

/-- The Conservative-buy scenario of the specification: 10-day mean return
+0.5%, 30-day mean return +0.3%, 30-day annualized volatility 8%. -/
def fC4 : Features :=
  ⟨0, 1/200, 0, 3/1000, some (2/25)⟩

/-- Features that trigger no branch of any policy. -/
def fQuiet : Features :=
  ⟨0, 0, 0, 0, some (1/10)⟩

/-- Catalog oracle for witnesses: every ticker is Products row 2. -/
def catalogW : Ticker → Option Nat := fun _ => some 2

/-- Returns-table annotation oracle for witnesses. -/
def annW : Nat → Nat → Option ℚ × Option ℚ := fun _ _ => (none, none)

/-- Constant product-type oracle for witnesses. -/
def tyStock : Ticker → ProductType := fun _ => ProductType.Stock

/-- Zero-position oracle. -/
def posn0 : Ticker → Int := fun _ => 0

/-- Ten-unit-position oracle. -/
def posn10 : Ticker → Int := fun _ => 10

/-- Randint oracle drawing 20 for every ticker. -/
def rnd20 : Ticker → Int := fun _ => 20

/-- Ledger rows used by the C1 witness. -/
def dealsW : List Deal :=
  [⟨1, 2, Op.achat, 10, 3, none, none⟩, ⟨1, 2, Op.vente, 4, 5, none, none⟩]

/-- The same rows inserted in the opposite order. -/
def dealsW2 : List Deal :=
  [⟨1, 2, Op.vente, 4, 5, none, none⟩, ⟨1, 2, Op.achat, 10, 3, none, none⟩]

/-- Portfolio-value oracle for the weekly-return witnesses: value 100 on
day 0 and 150 afterwards (a +50% week, clipped to +10%). -/
def valW : Nat → ℚ := fun d => if d = 0 then 100 else 150

/-- Two weekly samples of +10% for the metrics witness. -/
def sampW : List Sample :=
  [⟨0, 1/10, 100⟩, ⟨7, 1/10, 110⟩]

/-- The buy decision emitted by the Conservative policy in the witness
scenarios. -/
def dBuyW : Decision := ⟨1, tkA, Op.achat, 20⟩

/-- The buy decision emitted by the High-Yield policy in the witness
scenarios. -/
def dBuyHYW : Decision := ⟨1, tkA, Op.achat, 25⟩

/-- One-ticker market data with the mildly positive features. -/
def dataPosW : List (Ticker × Features) := [(tkA, fPos)]

/-- Decision list used by the store_deals witness. -/
def decsW : List Decision := [⟨1, tkA, Op.achat, 5⟩]

theorem sum_signed_split (l : List Deal) :
    (l.map signedQty).sum =
      ((l.filter (fun d => decide (d.type_operation = Op.achat))).map Deal.quantite).sum -
        ((l.filter (fun d => decide (d.type_operation = Op.vente))).map Deal.quantite).sum := by
  induction l with
  | nil => simp
  | cons d l ih =>
    cases hop : d.type_operation <;>
      simp [List.filter_cons, hop, signedQty, ih] <;> omega

theorem maxDateOf_cons (x : Deal) (xs : List Deal) :
    maxDateOf (x :: xs) = max x.date (maxDateOf xs) := rfl

theorem date_le_maxDateOf (l : List Deal) (d : Deal) (hd : d ∈ l) :
    d.date ≤ maxDateOf l := by
  induction l with
  | nil => cases hd
  | cons x xs ih =>
    rw [maxDateOf_cons]
    rcases List.mem_cons.mp hd with h | h
    · rw [h]; exact le_max_left _ _
    · exact le_trans (ih h) (le_max_right _ _)

theorem emitted_position_eq (deals : List Deal) (pid prod asOf : Nat) :
    emitted_position deals pid prod asOf = get_current_position deals pid prod asOf := by
  unfold emitted_position running_position get_current_position
  rw [List.filter_eq_self.mpr]
  intro d hd
  simpa using date_le_maxDateOf _ _ hd

theorem position_eq_zero_of_isEmpty (deals : List Deal) (pid prod asOf : Nat)
    (h : (dealGroup deals pid prod asOf).isEmpty = true) :
    get_current_position deals pid prod asOf = 0 := by
  unfold get_current_position
  rw [List.isEmpty_iff.mp h]
  rfl

theorem isEmpty_eq_of_length_eq (l1 l2 : List Deal) (h : l1.length = l2.length) :
    l1.isEmpty = l2.isEmpty := by
  cases l1 <;> cases l2 <;> simp_all

theorem get_current_position_perm (deals deals2 : List Deal) (pid prod asOf : Nat)
    (h : deals.Perm deals2) :
    get_current_position deals pid prod asOf = get_current_position deals2 pid prod asOf :=
  List.Perm.sum_eq ((h.filter _).map _)

/-- C1: for every portfolio, instrument and as-of date, the reconstructed
position is the sum of 'achat' quantities minus the sum of 'vente'
quantities over events dated ≤ as-of; the positions query emits exactly the
products whose final net quantity is strictly positive (and reports that
net quantity); and both queries are invariant under any permutation of the
insertion order of the trade events. -/
theorem c1_position_reconstruction (deals deals2 : List Deal)
    (pid prod asOf : Nat) (prods : List Nat) :
    (get_current_position deals pid prod asOf =
        buys_sum deals pid prod asOf - sells_sum deals pid prod asOf)
    ∧ (∀ q : Int, (prod, q) ∈ get_portfolio_positions deals pid asOf prods ↔
        prod ∈ prods ∧ 0 < get_current_position deals pid prod asOf ∧
          q = get_current_position deals pid prod asOf)
    ∧ (deals.Perm deals2 →
        get_current_position deals pid prod asOf =
            get_current_position deals2 pid prod asOf ∧
          get_portfolio_positions deals pid asOf prods =
            get_portfolio_positions deals2 pid asOf prods) := by
  refine ⟨sum_signed_split _, fun q => ?_, fun hperm => ?_⟩
  · unfold get_portfolio_positions
    rw [List.mem_filterMap]
    constructor
    · rintro ⟨p, hp, heq⟩
      split at heq
      · rcases Prod.mk.injEq .. ▸ Option.some.injEq .. ▸ heq with h
        have hpair := Option.some_injective _ heq
        have hfst : p = prod := congrArg Prod.fst hpair
        have hsnd : q = emitted_position deals pid p asOf :=
          (congrArg Prod.snd hpair).symm
        subst hfst
        rename_i hcond
        rw [emitted_position_eq] at hsnd hcond
        exact ⟨hp, hcond.2, hsnd⟩
      · cases heq
    · rintro ⟨hmem, hpos, hq⟩
      refine ⟨prod, hmem, ?_⟩
      have hemit : emitted_position deals pid prod asOf =
          get_current_position deals pid prod asOf := emitted_position_eq ..
      have hne : (dealGroup deals pid prod asOf).isEmpty = false := by
        cases hE : (dealGroup deals pid prod asOf).isEmpty
        · rfl
        · have := position_eq_zero_of_isEmpty deals pid prod asOf hE
          omega
      rw [if_pos ⟨hne, by rw [hemit]; exact hpos⟩, hemit, ← hq]
  · have hgcp : ∀ p, get_current_position deals pid p asOf =
        get_current_position deals2 pid p asOf := fun p =>
      get_current_position_perm deals deals2 pid p asOf hperm
    refine ⟨hgcp prod, ?_⟩
    unfold get_portfolio_positions
    apply List.filterMap_congr
    intro p _
    have hemit : emitted_position deals pid p asOf = emitted_position deals2 pid p asOf := by
      rw [emitted_position_eq, emitted_position_eq, hgcp p]
    have hempty : (dealGroup deals pid p asOf).isEmpty =
        (dealGroup deals2 pid p asOf).isEmpty :=
      isEmpty_eq_of_length_eq _ _ (hperm.filter _).length_eq
    rw [hemit, hempty]

/-- Closed instance of C1 at a concrete two-event ledger and its reversal. -/
theorem c1_position_reconstruction_witness :
    (get_current_position dealsW 1 2 9 = buys_sum dealsW 1 2 9 - sells_sum dealsW 1 2 9)
    ∧ ((2, (6 : Int)) ∈ get_portfolio_positions dealsW 1 9 [2, 7] ↔
        2 ∈ [2, 7] ∧ 0 < get_current_position dealsW 1 2 9 ∧
          (6 : Int) = get_current_position dealsW 1 2 9)
    ∧ (get_current_position dealsW 1 2 9 = get_current_position dealsW2 1 2 9 ∧
        get_portfolio_positions dealsW 1 9 [2, 7] =
          get_portfolio_positions dealsW2 1 9 [2, 7]) := by
  have h := c1_position_reconstruction dealsW dealsW2 1 2 9 [2, 7]
  exact ⟨h.1, h.2.1 6, h.2.2 (List.Perm.swap _ _ _)⟩

theorem le_pyInt_of_le (z : ℤ) (x : ℚ) (hx : 0 ≤ x) (h : (z : ℚ) ≤ x) :
    z ≤ pyInt x := by
  unfold pyInt
  rw [if_neg (not_lt.mpr hx)]
  exact Int.le_floor.mpr h

theorem lowRisk_buy_qty (v : ℚ) (hv0 : 0 < v) (hv : v < target_volatility * (12/10)) :
    max 5 (min 20 (pyInt (10000 / (v * 100)))) = 20 := by
  have h100 : (0:ℚ) < v * 100 := by positivity
  have h21 : ((21:ℤ) : ℚ) ≤ 10000 / (v * 100) := by
    rw [le_div_iff₀ h100]
    rw [target_volatility] at hv
    push_cast
    nlinarith
  have := le_pyInt_of_le 21 _ (le_trans (by norm_num) h21) h21
  omega

theorem highYield_buy_qty (v : ℚ) (hv0 : 0 < v) (hv : v < 40/100) :
    max 5 (min 25 (pyInt (15000 / (v * 100)))) = 25 := by
  have h100 : (0:ℚ) < v * 100 := by positivity
  have h375 : ((375:ℤ) : ℚ) ≤ 15000 / (v * 100) := by
    rw [le_div_iff₀ h100]
    push_cast
    nlinarith
  have := le_pyInt_of_le 375 _ (le_trans (by norm_num) h375) h375
  omega

theorem lowRisk_decision_shape (pid : Nat) (t : Ticker) (f : Features)
    (ty : ProductType) (p : Int) (d : Decision)
    (h : lowRiskTickerDecision pid t f ty p = Except.ok (some d)) :
    d.ticker = t ∧ 0 < d.qty ∧ (d.op = Op.vente → d.qty ≤ p) := by
  unfold lowRiskTickerDecision at h
  split at h
  · rename_i hp
    split at h
    · obtain rfl := Option.some.inj (Except.ok.inj h)
      refine ⟨rfl, ?_, fun _ => min_le_left _ _⟩
      exact lt_min hp (lt_of_lt_of_le (by norm_num) (le_max_left _ _))
    · exact Option.noConfusion (Except.ok.inj h)
  · split at h
    · exact Option.noConfusion (Except.ok.inj h)
    · split at h
      · split at h
        · exact Except.noConfusion h
        · obtain rfl := Option.some.inj (Except.ok.inj h)
          refine ⟨rfl, ?_, fun hop => by simp at hop⟩
          exact lt_of_lt_of_le (by norm_num) (le_max_left _ _)
      · exact Option.noConfusion (Except.ok.inj h)

theorem highYield_decision_shape (pid : Nat) (t : Ticker) (f : Features)
    (p : Int) (d : Decision)
    (h : highYieldTickerDecision pid t f p = Except.ok (some d)) :
    d.ticker = t ∧ 0 < d.qty ∧ (d.op = Op.vente → d.qty ≤ p) := by
  unfold highYieldTickerDecision at h
  split at h
  · rename_i hp
    split at h
    · obtain rfl := Option.some.inj (Except.ok.inj h)
      refine ⟨rfl, ?_, fun _ => min_le_left _ _⟩
      exact lt_min hp (lt_of_lt_of_le (by norm_num) (le_max_left _ _))
    · exact Option.noConfusion (Except.ok.inj h)
  · split at h
    · exact Option.noConfusion (Except.ok.inj h)
    · split at h
      · split at h
        · exact Except.noConfusion h
        · obtain rfl := Option.some.inj (Except.ok.inj h)
          refine ⟨rfl, ?_, fun hop => by simp at hop⟩
          exact lt_of_lt_of_le (by norm_num) (le_max_left _ _)
      · exact Option.noConfusion (Except.ok.inj h)

theorem lowTurnoverScan_shape (pid : Nat) (posn rnd : Ticker → Int)
    (hrnd : ∀ t, 15 ≤ rnd t) (data : List (Ticker × Features)) :
    ∀ d ∈ lowTurnoverScan pid posn rnd data,
      0 < d.qty ∧ (d.op = Op.vente → d.qty ≤ posn d.ticker) := by
  induction data with
  | nil => intro d hd; cases hd
  | cons tf rest ih =>
    obtain ⟨t, f⟩ := tf
    intro d hd
    unfold lowTurnoverScan at hd
    split at hd
    · rename_i hp
      split at hd
      · obtain rfl := List.mem_singleton.mp hd
        refine ⟨?_, fun _ => min_le_left _ _⟩
        exact lt_min hp (lt_of_lt_of_le (by norm_num) (hrnd t))
      · exact ih d hd
    · split at hd
      · obtain rfl := List.mem_singleton.mp hd
        refine ⟨lt_of_lt_of_le (by norm_num) (hrnd t), fun hop => by simp at hop⟩
      · exact ih d hd

theorem lowTurnoverScan_length_le (pid : Nat) (posn rnd : Ticker → Int)
    (data : List (Ticker × Features)) :
    (lowTurnoverScan pid posn rnd data).length ≤ 1 := by
  induction data with
  | nil => simp [lowTurnoverScan]
  | cons tf rest ih =>
    obtain ⟨t, f⟩ := tf
    unfold lowTurnoverScan
    split
    · split
      · simp
      · exact ih
    · split
      · simp
      · exact ih

theorem apply_low_risk_shape (pid : Nat) (ty : Ticker → ProductType)
    (posn : Ticker → Int) (data : List (Ticker × Features)) (ds : List Decision)
    (h : apply_low_risk_strategy pid ty posn data = Except.ok ds) :
    ∀ d ∈ ds, 0 < d.qty ∧ (d.op = Op.vente → d.qty ≤ posn d.ticker) := by
  induction data generalizing ds with
  | nil =>
    obtain rfl := Except.ok.inj h.symm
    intro d hd; cases hd
  | cons tf rest ih =>
    obtain ⟨t, f⟩ := tf
    unfold apply_low_risk_strategy at h
    split at h
    · exact Except.noConfusion h
    · exact ih ds h
    · rename_i d0 htd
      split at h
      · exact Except.noConfusion h
      · rename_i ds2 hrest
        obtain rfl := Except.ok.inj h.symm
        intro d hd
        rcases List.mem_cons.mp hd with rfl | hmem
        · obtain ⟨hticker, hq, hs⟩ := lowRisk_decision_shape pid t f (ty t) (posn t) d htd
          exact ⟨hq, fun hop => by rw [hticker]; exact hs hop⟩
        · exact ih ds2 hrest d hmem

theorem apply_high_yield_shape (pid : Nat) (posn : Ticker → Int)
    (data : List (Ticker × Features)) (ds : List Decision)
    (h : apply_high_yield_strategy pid posn data = Except.ok ds) :
    ∀ d ∈ ds, 0 < d.qty ∧ (d.op = Op.vente → d.qty ≤ posn d.ticker) := by
  induction data generalizing ds with
  | nil =>
    obtain rfl := Except.ok.inj h.symm
    intro d hd; cases hd
  | cons tf rest ih =>
    obtain ⟨t, f⟩ := tf
    unfold apply_high_yield_strategy at h
    split at h
    · exact Except.noConfusion h
    · exact ih ds h
    · rename_i d0 htd
      split at h
      · exact Except.noConfusion h
      · rename_i ds2 hrest
        obtain rfl := Except.ok.inj h.symm
        intro d hd
        rcases List.mem_cons.mp hd with rfl | hmem
        · obtain ⟨hticker, hq, hs⟩ := highYield_decision_shape pid t f (posn t) d htd
          exact ⟨hq, fun hop => by rw [hticker]; exact hs hop⟩
        · exact ih ds2 hrest d hmem

/-- C2: every decision emitted by the Conservative, Low-Turnover or
High-Yield policy carries a strictly positive quantity, and every sell
decision's quantity is clamped to at most the current position of its
ticker, so applying the decisions cannot drive a position negative and the
InvalidSellError situation is unreachable. The `hrnd` hypothesis is the
contract of `random.randint(15, 25)`. -/
theorem c2_policy_decision_safety (pid : Nat) (ty : Ticker → ProductType)
    (posn rnd : Ticker → Int) (day tr : Nat) (data : List (Ticker × Features))
    (hrnd : ∀ t, 15 ≤ rnd t ∧ rnd t ≤ 25) :
    (∀ ds, apply_low_risk_strategy pid ty posn data = Except.ok ds →
      ∀ d ∈ ds, 0 < d.qty ∧ (d.op = Op.vente → d.qty ≤ posn d.ticker))
    ∧ (∀ d ∈ apply_low_turnover_strategy pid posn rnd day tr data,
        0 < d.qty ∧ (d.op = Op.vente → d.qty ≤ posn d.ticker))
    ∧ (∀ ds, apply_high_yield_strategy pid posn data = Except.ok ds →
        ∀ d ∈ ds, 0 < d.qty ∧ (d.op = Op.vente → d.qty ≤ posn d.ticker)) := by
  refine ⟨fun ds h => apply_low_risk_shape pid ty posn data ds h, ?_,
    fun ds h => apply_high_yield_shape pid posn data ds h⟩
  intro d hd
  unfold apply_low_turnover_strategy at hd
  split at hd
  · split at hd
    · cases hd
    · exact lowTurnoverScan_shape pid posn rnd (fun t => (hrnd t).1) data d hd
  · cases hd

/-- Closed instance of C2: one ticker with positive momentum at a held
position of ten units, across the three policies. -/
theorem c2_policy_decision_safety_witness :
    (∀ ds, apply_low_risk_strategy 1 tyStock posn10 dataPosW = Except.ok ds →
      ∀ d ∈ ds, 0 < d.qty ∧ (d.op = Op.vente → d.qty ≤ posn10 d.ticker))
    ∧ (∀ d ∈ apply_low_turnover_strategy 1 posn10 rnd20 1 0 dataPosW,
        0 < d.qty ∧ (d.op = Op.vente → d.qty ≤ posn10 d.ticker))
    ∧ (∀ ds, apply_high_yield_strategy 1 posn10 dataPosW = Except.ok ds →
        ∀ d ∈ ds, 0 < d.qty ∧ (d.op = Op.vente → d.qty ≤ posn10 d.ticker)) :=
  c2_policy_decision_safety 1 tyStock posn10 rnd20 1 0 dataPosW
    (fun t => by constructor <;> norm_num [rnd20])

theorem lowRisk_buy_decision (pid : Nat) (t : Ticker) (f : Features)
    (ty : ProductType) (p : Int) (d : Decision) (v : ℚ)
    (hvol : f.vol = some v) (hv0 : 0 < v)
    (h : lowRiskTickerDecision pid t f ty p = Except.ok (some d))
    (hop : d.op = Op.achat) : d.qty = 20 := by
  unfold lowRiskTickerDecision at h
  split at h
  · split at h
    · obtain rfl := Option.some.inj (Except.ok.inj h)
      simp at hop
    · exact Option.noConfusion (Except.ok.inj h)
  · split at h
    · rename_i hnone
      rw [hvol] at hnone
      exact Option.noConfusion hnone
    · rename_i v2 hsome
      rw [hvol] at hsome
      obtain rfl := Option.some.inj hsome
      split at h
      · rename_i hgate
        split at h
        · exact Except.noConfusion h
        · obtain rfl := Option.some.inj (Except.ok.inj h)
          exact lowRisk_buy_qty v hv0 hgate.2.2
      · exact Option.noConfusion (Except.ok.inj h)

theorem highYield_buy_decision (pid : Nat) (t : Ticker) (f : Features)
    (p : Int) (d : Decision) (v : ℚ)
    (hvol : f.vol = some v) (hv0 : 0 < v)
    (h : highYieldTickerDecision pid t f p = Except.ok (some d))
    (hop : d.op = Op.achat) : d.qty = 25 := by
  unfold highYieldTickerDecision at h
  split at h
  · split at h
    · obtain rfl := Option.some.inj (Except.ok.inj h)
      simp at hop
    · exact Option.noConfusion (Except.ok.inj h)
  · split at h
    · rename_i hnone
      rw [hvol] at hnone
      exact Option.noConfusion hnone
    · rename_i v2 hsome
      rw [hvol] at hsome
      obtain rfl := Option.some.inj hsome
      split at h
      · rename_i hgate
        split at h
        · exact Except.noConfusion h
        · obtain rfl := Option.some.inj (Except.ok.inj h)
          exact highYield_buy_qty v hv0 hgate.2.2.2
      · exact Option.noConfusion (Except.ok.inj h)

/-- C10: whenever a buy branch fires under a strictly positive volatility,
the inverse-volatility sizing saturates at the upper clamp: below the
Conservative buy gate (1.2 x the 10% target) the truncated quotient
`int(10000 / (v * 100))` exceeds 20 and the emitted buy quantity is exactly
20; below the High-Yield 40% gate the truncated quotient
`int(15000 / (v * 100))` is at least 375 and the emitted buy quantity is
exactly 25 - the buy quantity never varies with volatility. -/
theorem c10_buy_size_saturates (v : ℚ) (hv0 : 0 < v) :
    (v < target_volatility * (12/10) →
      20 < pyInt (10000 / (v * 100)) ∧
        max 5 (min 20 (pyInt (10000 / (v * 100)))) = 20)
    ∧ (v < 40/100 →
      375 ≤ pyInt (15000 / (v * 100)) ∧
        max 5 (min 25 (pyInt (15000 / (v * 100)))) = 25)
    ∧ (∀ (pid : Nat) (t : Ticker) (f : Features) (ty : ProductType) (p : Int)
        (d : Decision), f.vol = some v →
        lowRiskTickerDecision pid t f ty p = Except.ok (some d) →
        d.op = Op.achat → d.qty = 20)
    ∧ (∀ (pid : Nat) (t : Ticker) (f : Features) (p : Int) (d : Decision),
        f.vol = some v →
        highYieldTickerDecision pid t f p = Except.ok (some d) →
        d.op = Op.achat → d.qty = 25) := by
  refine ⟨fun hv => ?_, fun hv => ?_,
    fun pid t f ty p d hvol h hop => lowRisk_buy_decision pid t f ty p d v hvol hv0 h hop,
    fun pid t f p d hvol h hop => highYield_buy_decision pid t f p d v hvol hv0 h hop⟩
  · have h100 : (0:ℚ) < v * 100 := by positivity
    have h21 : ((21:ℤ) : ℚ) ≤ 10000 / (v * 100) := by
      rw [le_div_iff₀ h100]
      rw [target_volatility] at hv
      push_cast
      nlinarith
    have := le_pyInt_of_le 21 _ (le_trans (by norm_num) h21) h21
    exact ⟨by omega, lowRisk_buy_qty v hv0 hv⟩
  · have h100 : (0:ℚ) < v * 100 := by positivity
    have h375 : ((375:ℤ) : ℚ) ≤ 15000 / (v * 100) := by
      rw [le_div_iff₀ h100]
      push_cast
      nlinarith
    have := le_pyInt_of_le 375 _ (le_trans (by norm_num) h375) h375
    exact ⟨by omega, highYield_buy_qty v hv0 hv⟩

/-- Closed instance of C10 at volatility 10%: the Conservative and
High-Yield buy branches both fire on the witness features and emit
quantities 20 and 25. -/
theorem c10_buy_size_saturates_witness :
    (20 < pyInt (10000 / ((1/10 : ℚ) * 100)) ∧
      max 5 (min 20 (pyInt (10000 / ((1/10 : ℚ) * 100)))) = 20)
    ∧ (375 ≤ pyInt (15000 / ((1/10 : ℚ) * 100)) ∧
      max 5 (min 25 (pyInt (15000 / ((1/10 : ℚ) * 100)))) = 25)
    ∧ dBuyW.qty = 20 ∧ dBuyHYW.qty = 25 := by
  have h := c10_buy_size_saturates (1/10) (by norm_num)
  refine ⟨h.1 (by norm_num [target_volatility]), h.2.1 (by norm_num), ?_, ?_⟩
  · refine h.2.2.1 1 tkA fPos ProductType.Stock 0 dBuyW rfl ?_ rfl
    norm_num [lowRiskTickerDecision, fPos, target_volatility, pyInt, dBuyW, tkA]
  · refine h.2.2.2 1 tkA fPos 0 dBuyHYW rfl ?_ rfl
    norm_num [highYieldTickerDecision, fPos, pyInt, dBuyHYW, tkA]

/-- C4 counterexample: in the specification's Conservative-buy scenario
(10d mean +0.5%, 30d mean +0.3%, volatility 8%, zero position) the policy
emits a Buy of quantity 20, not the claimed
clamp(10000 / (8 * 100), 5, 20) = 12: the code divides 10000 by the
decimal volatility times 100, i.e. by 8, and the truncated quotient 1250 is
clamped to the cap 20. -/
theorem c4_conservative_buy_scenario_counterexample :
    apply_low_risk_strategy 1 tyStock posn0 [(tkA, fC4)] = Except.ok [dBuyW]
    ∧ dBuyW.qty = 20 ∧ (20 : Int) ≠ 12 := by
  refine ⟨?_, rfl, by norm_num⟩
  norm_num [apply_low_risk_strategy, lowRiskTickerDecision, fC4,
    target_volatility, pyInt, posn0, tyStock, dBuyW, tkA]

/-- C4 amended: in the Conservative-buy scenario the emitted Buy quantity
is max(5, min(20, int(10000 / (0.08 * 100)))) = 20, because the volatility
enters the formula as the decimal 0.08, making the quotient 1250 before the
clamp. -/
theorem c4_conservative_buy_scenario :
    pyInt (10000 / ((2/25 : ℚ) * 100)) = 1250
    ∧ max 5 (min 20 (pyInt (10000 / ((2/25 : ℚ) * 100)))) = 20
    ∧ apply_low_risk_strategy 1 tyStock posn0 [(tkA, fC4)] =
        Except.ok [⟨1, tkA, Op.achat, 20⟩] := by
  refine ⟨by norm_num [pyInt], by norm_num [pyInt], ?_⟩
  norm_num [apply_low_risk_strategy, lowRiskTickerDecision, fC4,
    target_volatility, pyInt, posn0, tyStock, tkA]

/-- C5: the code, contrary to the specification's "skip on zero or
undefined volatility" contract, takes the buy branch at exactly-zero
volatility with positive trailing returns and evaluates
`int(10000 / (volatility * 100))` (resp. `int(15000 / ...)`), which raises
in Python (the float division by zero yields inf and `int(inf)` raises
OverflowError); only the NaN (undefined) volatility case is skipped, the
comparison `NaN < bound` being false. -/
theorem c5_zero_volatility_division_reached :
    lowRiskTickerDecision 1 tkA fZeroVol ProductType.Stock 0 = Except.error ()
    ∧ highYieldTickerDecision 1 tkA fZeroVol 0 = Except.error ()
    ∧ apply_low_risk_strategy 1 tyStock posn0 [(tkA, fZeroVol)] = Except.error ()
    ∧ apply_high_yield_strategy 1 posn0 [(tkA, fZeroVol)] = Except.error ()
    ∧ lowRiskTickerDecision 1 tkA fNaN ProductType.Stock 0 = Except.ok none
    ∧ highYieldTickerDecision 1 tkA fNaN 0 = Except.ok none := by
  refine ⟨?_, ?_, ?_, ?_, ?_, ?_⟩ <;>
    norm_num [apply_low_risk_strategy, apply_high_yield_strategy,
      lowRiskTickerDecision, highYieldTickerDecision, fZeroVol, fNaN,
      target_volatility, posn0, tyStock, tkA]

/-- C6: the Low-Turnover policy returns an empty decision list whenever the
week-of-month is neither 1 nor 3, and whenever a trade already exists for
the portfolio on the decision date; on any date it returns at most one
decision (the scan stops at the first qualifying ticker); and for day ≥ 1
the code's week formula `(day - 1) // 7 + 1` is the ceiling of day / 7. -/
theorem c6_low_turnover_gates (pid : Nat) (posn rnd : Ticker → Int)
    (day tr : Nat) (data : List (Ticker × Features)) :
    (week_number day ≠ 1 ∧ week_number day ≠ 3 →
      apply_low_turnover_strategy pid posn rnd day tr data = [])
    ∧ (0 < tr → apply_low_turnover_strategy pid posn rnd day tr data = [])
    ∧ (apply_low_turnover_strategy pid posn rnd day tr data).length ≤ 1
    ∧ (1 ≤ day → week_number day = (day + 6) / 7) := by
  refine ⟨fun h => ?_, fun h => ?_, ?_, fun h => ?_⟩
  · unfold apply_low_turnover_strategy
    rw [if_neg]
    rintro (h1 | h3)
    · exact h.1 h1
    · exact h.2 h3
  · unfold apply_low_turnover_strategy
    simp only [if_pos h]
    split <;> rfl
  · unfold apply_low_turnover_strategy
    split
    · split
      · simp
      · exact lowTurnoverScan_length_le pid posn rnd data
    · simp
  · unfold week_number
    omega

/-- Closed instance of C6: day 8 is in week 2 (empty list regardless of
data), an existing trade on day 1 empties the list, and the active-day scan
emits at most one decision. -/
theorem c6_low_turnover_gates_witness :
    apply_low_turnover_strategy 1 posn0 rnd20 8 0 dataPosW = []
    ∧ apply_low_turnover_strategy 1 posn0 rnd20 1 1 dataPosW = []
    ∧ (apply_low_turnover_strategy 1 posn0 rnd20 1 0 dataPosW).length ≤ 1
    ∧ week_number 8 = (8 + 6) / 7 := by
  have h8 := c6_low_turnover_gates 1 posn0 rnd20 8 0 dataPosW
  have h11 := c6_low_turnover_gates 1 posn0 rnd20 1 1 dataPosW
  have h10 := c6_low_turnover_gates 1 posn0 rnd20 1 0 dataPosW
  exact ⟨h8.1 (by decide), h11.2.1 (by decide), h10.2.2.1,
    h8.2.2.2 (by decide)⟩

theorem insertDeal_extends (catalog : Ticker → Option Nat)
    (ann : Nat → Nat → Option ℚ × Option ℚ) (dt : Nat) (led : List Deal)
    (e : Decision) : ∃ t, insertDeal catalog ann dt led e = led ++ t := by
  unfold insertDeal
  rcases hcat : catalog e.ticker with _ | prod
  · exact ⟨[], (List.append_nil led).symm⟩
  · by_cases hex : (led.any fun r => dealKeyEq r e.pid prod dt e.op) = true
    · exact ⟨[], by dsimp only; rw [if_pos hex, List.append_nil]⟩
    · refine ⟨[⟨e.pid, prod, e.op, e.qty, dt, (ann prod dt).1, (ann prod dt).2⟩], ?_⟩
      dsimp only
      rw [if_neg hex]

theorem store_deals_extends (catalog : Ticker → Option Nat)
    (ann : Nat → Nat → Option ℚ × Option ℚ) (dt : Nat) (ds : List Decision) :
    ∀ led, ∃ t, store_deals catalog ann dt led ds = led ++ t := by
  induction ds with
  | nil => exact fun led => ⟨[], (List.append_nil led).symm⟩
  | cons e ds ih =>
    intro led
    obtain ⟨t1, ht1⟩ := insertDeal_extends catalog ann dt led e
    obtain ⟨t2, ht2⟩ := ih (insertDeal catalog ann dt led e)
    refine ⟨t1 ++ t2, ?_⟩
    show store_deals catalog ann dt (insertDeal catalog ann dt led e) ds = _
    rw [ht2, ht1, List.append_assoc]

theorem store_deals_any_mono (catalog : Ticker → Option Nat)
    (ann : Nat → Nat → Option ℚ × Option ℚ) (dt : Nat) (ds : List Decision)
    (led : List Deal) (p : Deal → Bool) (h : led.any p = true) :
    (store_deals catalog ann dt led ds).any p = true := by
  obtain ⟨t, ht⟩ := store_deals_extends catalog ann dt ds led
  rw [ht, List.any_append, h, Bool.true_or]

theorem store_deals_key_present (catalog : Ticker → Option Nat)
    (ann : Nat → Nat → Option ℚ × Option ℚ) (dt : Nat) (ds : List Decision) :
    ∀ led, ∀ e ∈ ds, ∀ prod, catalog e.ticker = some prod →
      (store_deals catalog ann dt led ds).any
        (fun r => dealKeyEq r e.pid prod dt e.op) = true := by
  induction ds with
  | nil => intro led e he; cases he
  | cons e0 ds ih =>
    intro led e he prod hcat
    rcases List.mem_cons.mp he with rfl | hmem
    · show (store_deals catalog ann dt (insertDeal catalog ann dt led e) ds).any _ = true
      apply store_deals_any_mono
      unfold insertDeal
      rw [hcat]
      split
      · rename_i heq
        exact Option.noConfusion heq
      · rename_i prod2 heq
        obtain rfl := Option.some.inj heq
        by_cases hex : (led.any fun r => dealKeyEq r e.pid prod dt e.op) = true
        · rw [if_pos hex]
          exact hex
        · rw [if_neg hex, List.any_append]
          have hrow : dealKeyEq ⟨e.pid, prod, e.op, e.qty, dt, (ann prod dt).1,
              (ann prod dt).2⟩ e.pid prod dt e.op = true := by
            unfold dealKeyEq
            exact decide_eq_true ⟨rfl, rfl, rfl, rfl⟩
          simp [hrow]
    · exact ih (insertDeal catalog ann dt led e0) e hmem prod hcat

theorem store_deals_no_op (catalog : Ticker → Option Nat)
    (ann : Nat → Nat → Option ℚ × Option ℚ) (dt : Nat) (ds : List Decision) :
    ∀ led, (∀ e ∈ ds, ∀ prod, catalog e.ticker = some prod →
        led.any (fun r => dealKeyEq r e.pid prod dt e.op) = true) →
      store_deals catalog ann dt led ds = led := by
  induction ds with
  | nil => intro led _; rfl
  | cons e0 ds ih =>
    intro led hall
    show store_deals catalog ann dt (insertDeal catalog ann dt led e0) ds = led
    have hins : insertDeal catalog ann dt led e0 = led := by
      unfold insertDeal
      rcases hcat : catalog e0.ticker with _ | prod
      · rfl
      · split
        · rename_i heq
          exact Option.noConfusion heq
        · rename_i prod2 heq
          obtain rfl := Option.some.inj heq
          rw [if_pos (hall e0 (List.mem_cons_self _ _) prod hcat)]
    rw [hins]
    exact ih led (fun e he prod h => hall e (List.mem_cons_of_mem _ he) prod h)

theorem insertDeal_nodup (catalog : Ticker → Option Nat)
    (ann : Nat → Nat → Option ℚ × Option ℚ) (dt : Nat) (led : List Deal)
    (e : Decision) (h : NoDupKeys led) :
    NoDupKeys (insertDeal catalog ann dt led e) := by
  unfold insertDeal
  rcases hcat : catalog e.ticker with _ | prod
  · exact h
  · split
    · rename_i heq
      exact Option.noConfusion heq
    · rename_i prod2 heq
      obtain rfl := Option.some.inj heq
      by_cases hex : (led.any fun r => dealKeyEq r e.pid prod dt e.op) = true
      · rw [if_pos hex]
        exact h
      · rw [if_neg hex]
        unfold NoDupKeys at h ⊢
        rw [List.pairwise_append]
        refine ⟨h, List.pairwise_singleton _ _, ?_⟩
        intro a ha b hb
        obtain rfl := List.mem_singleton.mp hb
        intro hsk
        apply hex
        rw [List.any_eq_true]
        refine ⟨a, ha, ?_⟩
        unfold dealKeyEq
        exact decide_eq_true hsk

theorem store_deals_nodup (catalog : Ticker → Option Nat)
    (ann : Nat → Nat → Option ℚ × Option ℚ) (dt : Nat) (ds : List Decision) :
    ∀ led, NoDupKeys led → NoDupKeys (store_deals catalog ann dt led ds) := by
  induction ds with
  | nil => exact fun led h => h
  | cons e ds ih =>
    intro led h
    exact ih (insertDeal catalog ann dt led e)
      (insertDeal_nodup catalog ann dt led e h)

/-- C3: recording the same decision list for the same date twice leaves the
ledger exactly as recording it once (the dedup lookup skips every decision
whose (portfolio, product, date, operation) key is already present), and
the recorder preserves the invariant that no two ledger rows share a key,
so at most one event per key ever exists. -/
theorem c3_store_deals_idempotent (catalog : Ticker → Option Nat)
    (ann : Nat → Nat → Option ℚ × Option ℚ) (dt : Nat) (led : List Deal)
    (ds : List Decision) :
    store_deals catalog ann dt (store_deals catalog ann dt led ds) ds =
      store_deals catalog ann dt led ds
    ∧ (NoDupKeys led → NoDupKeys (store_deals catalog ann dt led ds)) := by
  constructor
  · apply store_deals_no_op
    intro e he prod hcat
    exact store_deals_key_present catalog ann dt ds led e he prod hcat
  · exact store_deals_nodup catalog ann dt ds led

/-- Closed instance of C3: one buy decision recorded twice on an empty
ledger, with the key-uniqueness invariant of the result. -/
theorem c3_store_deals_idempotent_witness :
    store_deals catalogW annW 3 (store_deals catalogW annW 3 [] decsW) decsW =
      store_deals catalogW annW 3 [] decsW
    ∧ NoDupKeys (store_deals catalogW annW 3 [] decsW) := by
  have h := c3_store_deals_idempotent catalogW annW 3 [] decsW
  exact ⟨h.1, h.2 List.Pairwise.nil⟩

theorem clip_mem (x : ℚ) :
    -(10/100) ≤ clip x (-(10/100)) (10/100) ∧ clip x (-(10/100)) (10/100) ≤ 10/100 := by
  unfold clip
  exact ⟨le_min (by norm_num) (le_max_left _ _), min_le_left _ _⟩

theorem weeklyGo_ret_bounds (value : Nat → ℚ) (mondays : List Nat) :
    ∀ prev, ∀ s ∈ weeklyGo value prev mondays,
      -(10/100) ≤ s.ret ∧ s.ret ≤ 10/100 := by
  induction mondays with
  | nil => intro prev s hs; cases prev <;> cases hs
  | cons m rest ih =>
    intro prev s hs
    rcases prev with _ | pv
    · exact ih _ s hs
    · unfold weeklyGo at hs
      split at hs
      · rcases List.mem_cons.mp hs with rfl | hmem
        · exact clip_mem _
        · exact ih _ s hmem
      · exact ih _ s hs

/-- C8: every weekly return sample produced by get_weekly_returns has its
return value inside the closed interval [-10%, +10%]: the consecutive
value ratio minus one passes through np.clip before being recorded. -/
theorem c8_weekly_returns_clipped (value : Nat → ℚ) (mondays : List Nat) :
    ∀ s ∈ get_weekly_returns value mondays,
      -(10/100) ≤ s.ret ∧ s.ret ≤ 10/100 :=
  weeklyGo_ret_bounds value mondays none

/-- Closed instance of C8: a +50% raw week is recorded as exactly +10%. -/
theorem c8_weekly_returns_clipped_witness :
    -(10/100 : ℚ) ≤ (⟨7, 1/10, 150⟩ : Sample).ret ∧
      (⟨7, 1/10, 150⟩ : Sample).ret ≤ 10/100 :=
  c8_weekly_returns_clipped valW [0, 7] ⟨7, 1/10, 150⟩
    (by norm_num [get_weekly_returns, weeklyGo, valW, clip])

/-- C9: with fewer than two weekly samples the metrics computation returns
the canonical all-zero metrics object (total return, annualized return,
annualized volatility, Sharpe ratio and maximum drawdown all zero) instead
of failing. -/
theorem c9_metrics_empty_range (samples : List Sample)
    (h : samples.length < 2) :
    calculate_performance_metrics samples = zeroMetrics
    ∧ (calculate_performance_metrics samples).rendement_total = 0
    ∧ (calculate_performance_metrics samples).rendement_annualise = 0
    ∧ (calculate_performance_metrics samples).volatilite_annualisee = 0
    ∧ (calculate_performance_metrics samples).ratio_sharpe = 0
    ∧ (calculate_performance_metrics samples).drawdown_max = 0 := by
  have h0 : calculate_performance_metrics samples = zeroMetrics := by
    unfold calculate_performance_metrics
    rw [if_pos h]
  rw [h0]
  exact ⟨rfl, rfl, rfl, rfl, rfl, rfl⟩

/-- Closed instance of C9 on the empty sample list. -/
theorem c9_metrics_empty_range_witness :
    calculate_performance_metrics [] = zeroMetrics
    ∧ (calculate_performance_metrics []).rendement_total = 0
    ∧ (calculate_performance_metrics []).rendement_annualise = 0
    ∧ (calculate_performance_metrics []).volatilite_annualisee = 0
    ∧ (calculate_performance_metrics []).ratio_sharpe = 0
    ∧ (calculate_performance_metrics []).drawdown_max = 0 :=
  c9_metrics_empty_range [] (by norm_num)

/-- C7: with at least two weekly samples the metrics satisfy the stated
formulas: geometric total return, annualized return with exponent
52 / weeks, annualized volatility std * sqrt(52), and the Sharpe ratio
(annualized return - 2%) / volatility guarded to 0 at zero volatility. -/
theorem c7_performance_metric_formulas (samples : List Sample)
    (h : 2 ≤ samples.length) :
    (calculate_performance_metrics samples).rendement_total =
        ((samples.map Sample.ret).map (fun r => 1 + r)).prod - 1
    ∧ (calculate_performance_metrics samples).rendement_annualise =
        (1 + ((calculate_performance_metrics samples).rendement_total : ℝ)) ^
          ((52 : ℝ) / ((samples.map Sample.ret).length : ℝ)) - 1
    ∧ (calculate_performance_metrics samples).volatilite_annualisee =
        Real.sqrt ((sampleVar (samples.map Sample.ret) : ℝ)) * Real.sqrt 52
    ∧ ((calculate_performance_metrics samples).volatilite_annualisee ≠ 0 →
        (calculate_performance_metrics samples).ratio_sharpe =
          ((calculate_performance_metrics samples).rendement_annualise -
              risk_free_rate) /
            (calculate_performance_metrics samples).volatilite_annualisee)
    ∧ ((calculate_performance_metrics samples).volatilite_annualisee = 0 →
        (calculate_performance_metrics samples).ratio_sharpe = 0) := by
  have hn : ¬ samples.length < 2 := not_lt.mpr h
  unfold calculate_performance_metrics
  rw [if_neg hn]
  dsimp only
  refine ⟨rfl, rfl, rfl, fun hv => ?_, fun hv => ?_⟩
  · rw [if_pos hv]
  · rw [if_neg (fun hne => hne hv)]

/-- Closed instance of C7 on two +10% weekly samples. -/
theorem c7_performance_metric_formulas_witness :
    (calculate_performance_metrics sampW).rendement_total =
        ((sampW.map Sample.ret).map (fun r => 1 + r)).prod - 1
    ∧ (calculate_performance_metrics sampW).rendement_annualise =
        (1 + ((calculate_performance_metrics sampW).rendement_total : ℝ)) ^
          ((52 : ℝ) / ((sampW.map Sample.ret).length : ℝ)) - 1
    ∧ (calculate_performance_metrics sampW).volatilite_annualisee =
        Real.sqrt ((sampleVar (sampW.map Sample.ret) : ℝ)) * Real.sqrt 52
    ∧ ((calculate_performance_metrics sampW).volatilite_annualisee ≠ 0 →
        (calculate_performance_metrics sampW).ratio_sharpe =
          ((calculate_performance_metrics sampW).rendement_annualise -
              risk_free_rate) /
            (calculate_performance_metrics sampW).volatilite_annualisee)
    ∧ ((calculate_performance_metrics sampW).volatilite_annualisee = 0 →
        (calculate_performance_metrics sampW).ratio_sharpe = 0) :=
  c7_performance_metric_formulas sampW (by norm_num [sampW])
